import Mathlib

/-!
Verification of the de-store-mvp federated storage system (coordinator and
storage-node, Go) against its natural-language specification.

The development shallowly embeds the relevant source functions:

* SHA-256 (Go `crypto/sha256.Sum256`) as an executable function on byte lists,
  checked against the digests appearing in the repository's own tests;
* the storage node's `ChunkService` (`StoreChunk`, `GetChunk`, `GetChunkData`,
  `DeleteChunk`) over an explicit filesystem/database state;
* the storage node's `ProofEngine.GenerateProof`;
* the coordinator's `ProofService.generateExpectedProof` and `VerifyProof`,
  `ChunkService.StoreChunk` / `SelectNodesForChunks`, `NodeService.GetAllNodes`
  and `NodeService.UpdateHeartbeat` over an explicit relational state.

Machine integers are modelled as `Nat` reduced mod 2^32 where the Go code
works on `uint32`; byte strings are `List Nat` with entries below 256.
Timestamps are abstract `Nat` ticks passed explicitly where the Go code calls
`time.Now()`; wall-clock durations are inputs, never recomputed.
-/

namespace DeStore

/-- Bytes are natural numbers below 256; operations keep them in range. -/
abbrev Bytes := List Nat

/-- Reduce modulo 2^32, the `uint32` wrap-around used throughout SHA-256. -/
def w32 (x : Nat) : Nat := x % 4294967296

/-- 32-bit right rotation. -/
def rotr (n x : Nat) : Nat := w32 ((x >>> n) ||| (x <<< (32 - n)))

/-- Logical right shift. -/
def shr (n x : Nat) : Nat := x >>> n

/-- SHA-256 big sigma 0. -/
def bsig0 (x : Nat) : Nat := (rotr 2 x) ^^^ (rotr 13 x) ^^^ (rotr 22 x)

/-- SHA-256 big sigma 1. -/
def bsig1 (x : Nat) : Nat := (rotr 6 x) ^^^ (rotr 11 x) ^^^ (rotr 25 x)

/-- SHA-256 small sigma 0. -/
def ssig0 (x : Nat) : Nat := (rotr 7 x) ^^^ (rotr 18 x) ^^^ (shr 3 x)

/-- SHA-256 small sigma 1. -/
def ssig1 (x : Nat) : Nat := (rotr 17 x) ^^^ (rotr 19 x) ^^^ (shr 10 x)

/-- SHA-256 choice function; complement realised as xor with 2^32 - 1. -/
def ch (x y z : Nat) : Nat := (x &&& y) ^^^ ((x ^^^ 4294967295) &&& z)

/-- SHA-256 majority function. -/
def maj (x y z : Nat) : Nat := (x &&& y) ^^^ (x &&& z) ^^^ (y &&& z)

/-- The 64 SHA-256 round constants. -/
def shaK : List Nat :=
  [1116352408, 1899447441, 3049323471, 3921009573, 961987163,
   1508970993, 2453635748, 2870763221, 3624381080, 310598401,
   607225278, 1426881987, 1925078388, 2162078206, 2614888103,
   3248222580, 3835390401, 4022224774, 264347078, 604807628,
   770255983, 1249150122, 1555081692, 1996064986, 2554220882,
   2821834349, 2952996808, 3210313671, 3336571891, 3584528711,
   113926993, 338241895, 666307205, 773529912, 1294757372,
   1396182291, 1695183700, 1986661051, 2177026350, 2456956037,
   2730485921, 2820302411, 3259730800, 3345764771, 3516065817,
   3600352804, 4094571909, 275423344, 430227734, 506948616,
   659060556, 883997877, 958139571, 1322822218, 1537002063,
   1747873779, 1955562222, 2024104815, 2227730452, 2361852424,
   2428436474, 2756734187, 3204031479, 3329325298]

/-- The SHA-256 initial hash state. -/
def shaH0 : List Nat :=
  [1779033703, 3144134277, 1013904242, 2773480762,
   1359893119, 2600822924, 528734635, 1541459225]

/-- `n` bytes of `x`, big-endian. -/
def beBytes (n x : Nat) : Bytes :=
  (List.range n).map (fun i => (x >>> (8 * (n - 1 - i))) % 256)

/-- Pack bytes into 32-bit big-endian words (tail shorter than 4 is dropped;
SHA-256 only applies this to padded input whose length is a multiple of 64). -/
def toWords : Bytes → List Nat
  | a :: b :: c :: d :: rest => (((a * 256 + b) * 256 + c) * 256 + d) :: toWords rest
  | _ => []

/-- Split a word list into 16-word blocks (a tail shorter than 16 is dropped). -/
def toBlocks : List Nat → List (List Nat)
  | w0 :: w1 :: w2 :: w3 :: w4 :: w5 :: w6 :: w7 ::
    w8 :: w9 :: w10 :: w11 :: w12 :: w13 :: w14 :: w15 :: rest =>
      [w0, w1, w2, w3, w4, w5, w6, w7, w8, w9, w10, w11, w12, w13, w14, w15]
        :: toBlocks rest
  | _ => []

/-- One extension step of the SHA-256 message schedule. -/
def stepSchedule (w : List Nat) : List Nat :=
  let n := w.length
  w ++ [w32 (ssig1 (w.getD (n - 2) 0) + w.getD (n - 7) 0 +
             ssig0 (w.getD (n - 15) 0) + w.getD (n - 16) 0)]

/-- Extend a 16-word block to the 64-word schedule. -/
def schedule (w : List Nat) : List Nat := Nat.iterate stepSchedule 48 w

/-- One SHA-256 compression round on the 8-word working state. -/
def shaRound (s : List Nat) (kw : Nat × Nat) : List Nat :=
  match s with
  | [a, b, c, d, e, f, g, h] =>
    let t1 := w32 (h + bsig1 e + ch e f g + kw.1 + kw.2)
    let t2 := w32 (bsig0 a + maj a b c)
    [w32 (t1 + t2), a, b, c, w32 (d + t1), e, f, g]
  | other => other

/-- Compress one 16-word block into the hash state. -/
def compressBlock (h : List Nat) (block : List Nat) : List Nat :=
  let s := (shaK.zip (schedule block)).foldl shaRound h
  (h.zip s).map (fun p => w32 (p.1 + p.2))

/-- SHA-256 of a byte list, as Go's `crypto/sha256.Sum256`: pad with 0x80,
zeros to 56 mod 64, and the 8-byte big-endian bit length, then compress. -/
def sha256 (msg : Bytes) : Bytes :=
  let padded := msg ++ 128 :: List.replicate ((120 - ((msg.length + 1) % 64)) % 64) 0
                  ++ beBytes 8 (8 * msg.length)
  ((toBlocks (toWords padded)).foldl compressBlock shaH0).map (beBytes 4) |>.flatten

/-- Lowercase hex digit for a value below 16. -/
def hexDigit (n : Nat) : Char :=
  if n < 10 then Char.ofNat (48 + n) else Char.ofNat (87 + n)

/-- Lowercase hex encoding of a byte list, as Go's `hex.EncodeToString`. -/
def hexEncode (bs : Bytes) : String :=
  String.mk ((bs.map (fun b => [hexDigit (b / 16), hexDigit (b % 16)])).flatten)

/-- The bytes of an ASCII string, as Go's `[]byte(s)` on the identifiers and
hex digests this system feeds to its hash computations. -/
def strBytes (s : String) : Bytes := s.data.map Char.toNat

/-! ## Storage node: chunk store (`storage-node/internal/services/chunk.go`)

A row of the `stored_chunks` SQLite table.  `created_at` / `updated_at`
timestamps carry no behaviour the claims touch and are omitted. -/

structure StoredChunk where
  id : String
  fileID : String
  chunkIndex : Int
  hash : String
  sizeBytes : Nat
  filePath : String
  status : String
deriving DecidableEq

/-- The storage node's local state: the configured chunk directory, the
on-disk files (path ↦ bytes, insertion order), and the `stored_chunks`
rows in insertion order. -/
structure NodeStore where
  chunkDir : String
  fs : List (String × Bytes)
  rows : List StoredChunk
deriving DecidableEq

instance : Inhabited NodeStore := ⟨{ chunkDir := "", fs := [], rows := [] }⟩

/-- Write a file: overwrite the entry at `p` or append a fresh one,
modelling `os.WriteFile` on the in-memory filesystem. -/
def fsWrite (fs : List (String × Bytes)) (p : String) (d : Bytes) :
    List (String × Bytes) :=
  if fs.any (fun e => e.1 == p) then
    fs.map (fun e => if e.1 == p then (p, d) else e)
  else
    fs ++ [(p, d)]

/-- Read a file, `none` when absent, modelling `os.ReadFile`. -/
def fsRead (fs : List (String × Bytes)) (p : String) : Option Bytes :=
  (fs.find? (fun e => e.1 == p)).map Prod.snd

/-- The sharded on-disk location `<chunkDir>/<id[0:2]>/<id[2:4]>/<id>` the
peer writes a chunk to. -/
def chunkPath (chunkDir chunkID : String) : String :=
  chunkDir ++ "/" ++ chunkID.take 2 ++ "/" ++ (chunkID.drop 2).take 2 ++ "/" ++ chunkID

/-- Peer-side `ChunkService.StoreChunk`: write the bytes to the sharded path
`<chunkDir>/<id[0:2]>/<id[2:4]>/<id>` (directory creation always succeeds in
the model) and upsert the index row.  Go's slices `chunkID[:2]` and
`chunkID[2:4]` panic on an id shorter than 4 bytes; the panic is modelled as
`none` (ids here are ASCII, so `String.take`/`drop` match Go's byte slicing).
The SQL `ON CONFLICT(id) DO UPDATE` rewrites every column except `status`
and `created_at`; a fresh row gets the schema default status `active`.
The Go code never hashes `data`: the supplied `hash` is recorded as given. -/
def storeChunk (st : NodeStore) (chunkID fileID : String) (chunkIndex : Int)
    (hash : String) (data : Bytes) : Option NodeStore :=
  if chunkID.length < 4 then none else
  let filePath := chunkPath st.chunkDir chunkID
  let rows :=
    if st.rows.any (fun r => r.id == chunkID) then
      st.rows.map (fun r =>
        if r.id == chunkID then
          { r with fileID := fileID, chunkIndex := chunkIndex, hash := hash,
                   sizeBytes := data.length, filePath := filePath }
        else r)
    else
      st.rows ++ [{ id := chunkID, fileID := fileID, chunkIndex := chunkIndex,
                    hash := hash, sizeBytes := data.length, filePath := filePath,
                    status := "active" }]
  some { st with fs := fsWrite st.fs filePath data, rows := rows }

/-- Peer-side `ChunkService.GetChunk`: the `SELECT ... WHERE id = ?` row
lookup.  Note there is no filter on `status`. -/
def getChunk (st : NodeStore) (chunkID : String) : Option StoredChunk :=
  st.rows.find? (fun r => r.id == chunkID)

/-- Peer-side `ChunkService.GetChunkData`: look the row up, then read the
recorded `file_path` from disk. -/
def getChunkData (st : NodeStore) (chunkID : String) : Option Bytes :=
  match getChunk st chunkID with
  | none => none
  | some c => fsRead st.fs c.filePath

/-- Peer-side `ChunkService.DeleteChunk`: `UPDATE stored_chunks SET
status = 'deleted' WHERE id = ?`.  The on-disk file is not unlinked. -/
def deleteChunk (st : NodeStore) (chunkID : String) : NodeStore :=
  { st with rows := st.rows.map (fun r =>
      if r.id == chunkID then { r with status := "deleted" } else r) }

/-! ## Storage node: proof engine (`storage-node/internal/services/coordinator.go`) -/

/-- The peer's difficulty loop
`for i := 0; i < difficulty; i++ { data = sha256(data) }`. -/
def sha256Iter : Nat → Bytes → Bytes
  | 0, d => d
  | n + 1, d => sha256Iter n (sha256 d)

/-- Peer-side `ProofEngine.GenerateProof`: look the chunk row up (not-found
becomes `none`), then hash `seed ∥ []byte(chunk.Hash)` — the stored hex
digest STRING, not the chunk's ciphertext — `difficulty` times and
hex-encode.  The measured wall-clock `DurationMs` is not modelled. -/
def generateProof (st : NodeStore) (chunkID : String) (seed : Bytes)
    (difficulty : Nat) : Option String :=
  match getChunk st chunkID with
  | none => none
  | some chunk => some (hexEncode (sha256Iter difficulty (seed ++ strBytes chunk.hash)))

/-- The proof computation the spec prescribes in §4.4, stated from the
spec's words for comparison with `generateProof`: retrieve the CIPHERTEXT
for the chunk from the local store, then hex-encode the `difficulty`-fold
SHA-256 of `seed ∥ ciphertext`. -/
def specProofHash (st : NodeStore) (chunkID : String) (seed : Bytes)
    (difficulty : Nat) : Option String :=
  match getChunkData st chunkID with
  | none => none
  | some ciphertext => some (hexEncode (sha256Iter difficulty (seed ++ ciphertext)))

/-! ## Coordinator: registry, chunks, assignments, challenges
(`coordinator/internal/services/node.go`, `.../services/chunk.go`,
`.../services/proof.go`, schema from `coordinator/web/README.md` and the
migrations) -/

/-- A `storage_nodes` row.  `uuid` ids are opaque strings here;
`uptime_percentage` (a `DECIMAL(5,2)` / Go `float64`) is carried as `Int`
since the code under scrutiny only ever stores and echoes it. -/
structure StorageNode where
  id : String
  name : String
  peerID : String
  address : String
  apiKeyHash : String
  status : String
  totalStorageBytes : Int
  usedStorageBytes : Int
  earnedCredits : Int
  uptimePercentage : Int
  lastHeartbeat : Option Nat
deriving DecidableEq

/-- A `chunks` row.  The code's `INSERT INTO chunks` stores the ciphertext in
a `data` column alongside the metadata. -/
structure CChunk where
  id : String
  fileID : String
  chunkIndex : Int
  hash : String
  sizeBytes : Nat
  data : Bytes
deriving DecidableEq

/-- A `chunk_assignments` row. -/
structure CAssignment where
  id : String
  chunkID : String
  nodeID : String
  status : String
deriving DecidableEq

/-- A `proof_challenges` row.  The schema has no failure-reason column;
`verified_at` is an abstract tick. -/
structure CChallenge where
  id : String
  chunkID : String
  nodeID : String
  seed : Bytes
  difficulty : Nat
  status : String
  proofHash : Option String
  durationMs : Option Int
  verifiedAt : Option Nat
deriving DecidableEq

/-- The coordinator's relational state: the four tables the claims touch,
each in insertion order. -/
structure CoordState where
  nodes : List StorageNode
  chunks : List CChunk
  assignments : List CAssignment
  challenges : List CChallenge
deriving DecidableEq

deriving instance DecidableEq for Except

/-- `NodeService.GetAllNodes`: `SELECT ... FROM storage_nodes WHERE
status = 'active'` (row order determinised to insertion order). -/
def getAllNodes (nodes : List StorageNode) : List StorageNode :=
  nodes.filter (fun n => n.status == "active")

/-- `ChunkService.SelectNodesForChunks`: fetch the active nodes, fail when
fewer than `replicaCount` exist, otherwise return the first `replicaCount`
of them.  Capacity, heartbeat recency and existing assignments are not
consulted. -/
def selectNodesForChunks (nodes : List StorageNode) (replicaCount : Nat) :
    Except String (List StorageNode) :=
  let active := getAllNodes nodes
  if active.length < replicaCount then
    Except.error "not enough active nodes"
  else
    Except.ok (active.take replicaCount)

/-- The spec's peer-eligibility predicate (§4.1), stated from the spec's
words for comparison with `selectNodesForChunks`: active status, heartbeat
within the liveness window, enough free declared capacity for the chunk,
and no existing non-deleted assignment binding this chunk to this peer. -/
def specEligible (now livenessWindow : Nat) (sizeBytes : Nat)
    (assignments : List CAssignment) (chunkID : String) (n : StorageNode) : Bool :=
  n.status == "active" &&
  (match n.lastHeartbeat with
   | some t => now - t ≤ livenessWindow
   | none => false) &&
  (sizeBytes : Int) ≤ n.totalStorageBytes - n.usedStorageBytes &&
  !(assignments.any (fun a =>
      a.chunkID == chunkID && a.nodeID == n.id && a.status != "deleted"))

/-- `NodeService.UpdateHeartbeat`: `UPDATE storage_nodes SET last_heartbeat,
used_storage_bytes, updated_at WHERE id = ?`.  No other column is written:
in particular neither `status` nor `uptime_percentage`. -/
def updateHeartbeat (nodes : List StorageNode) (now : Nat) (nodeID : String)
    (usedBytes : Int) : List StorageNode :=
  nodes.map (fun n =>
    if n.id == nodeID then
      { n with lastHeartbeat := some now, usedStorageBytes := usedBytes }
    else n)

/-- `NodeService.GetAPIKeyHash`, used by the node-auth middleware in front
of the heartbeat handler: `SELECT api_key_hash FROM storage_nodes WHERE
peer_id = $1 AND status = 'active'` — a non-active peer cannot
authenticate. -/
def getAPIKeyHash (nodes : List StorageNode) (peerID : String) : Option String :=
  (nodes.find? (fun n => n.peerID == peerID && n.status == "active")).map
    (fun n => n.apiKeyHash)

/-- Coordinator `ChunkService.StoreChunk`: hash the ciphertext, insert the
chunk row (ciphertext included), and insert one `chunk_assignments` row per
selected node.  `uuid.New()` results are passed in as `chunkUUID` and
`assignmentUUIDs` (zipped with `nodeIDs`).  The `INSERT` names only
`(id, chunk_id, node_id)`, so `status` takes the schema default `active`;
no peer is contacted, no acknowledgment awaited, and no node row (in
particular no `used_storage_bytes`) is written. -/
def coordStoreChunk (st : CoordState) (chunkUUID fileID : String)
    (chunkIndex : Int) (data : Bytes) (nodeIDs assignmentUUIDs : List String) :
    CoordState × CChunk :=
  let chunk : CChunk :=
    { id := chunkUUID, fileID := fileID, chunkIndex := chunkIndex,
      hash := hexEncode (sha256 data), sizeBytes := data.length, data := data }
  let fresh : List CAssignment := (nodeIDs.zip assignmentUUIDs).map (fun p =>
    { id := p.2, chunkID := chunkUUID, nodeID := p.1, status := "active" })
  ({ st with chunks := st.chunks ++ [chunk],
             assignments := st.assignments ++ fresh }, chunk)

/-- `ProofService.generateExpectedProof`: a SINGLE SHA-256 of
`seed ∥ []byte(chunkID.String())`, hex-encoded — the difficulty is not
consulted and neither is the ciphertext. -/
def generateExpectedProof (seed : Bytes) (chunkID : String) : String :=
  hexEncode (sha256 (seed ++ strBytes chunkID))

/-- Outcome of `ProofService.VerifyProof`, mirroring its `error` returns. -/
inductive VerifyOutcome
  | ok
  | challengeNotFound
  | timedOut
  | invalidProof
deriving DecidableEq

/-- Rewrite the challenge row(s) with the given id, as the `UPDATE
proof_challenges ... WHERE id = $n` statements do. -/
def updateChallenge (cs : List CChallenge) (challengeID : String)
    (f : CChallenge → CChallenge) : List CChallenge :=
  cs.map (fun c => if c.id == challengeID then f c else c)

/-- The timeout branch's row rewrite in `VerifyProof`:
`SET status = 'failed', duration_ms, verified_at` — no proof hash and no
reason column. -/
def timeoutUpdate (now : Nat) (durationMs : Int) (c : CChallenge) : CChallenge :=
  { c with status := "failed", durationMs := some durationMs,
           verifiedAt := some now }

/-- The mismatch branch's row rewrite: `SET status = 'failed', proof_hash,
duration_ms, verified_at`. -/
def mismatchUpdate (now : Nat) (proofHash : String) (durationMs : Int)
    (c : CChallenge) : CChallenge :=
  { c with status := "failed", proofHash := some proofHash,
           durationMs := some durationMs, verifiedAt := some now }

/-- The success branch's row rewrite: `SET status = 'verified', proof_hash,
duration_ms, verified_at`. -/
def verifiedUpdate (now : Nat) (proofHash : String) (durationMs : Int)
    (c : CChallenge) : CChallenge :=
  { c with status := "verified", proofHash := some proofHash,
           durationMs := some durationMs, verifiedAt := some now }

/-- `ProofService.VerifyProof`: fetch the challenge by id (the `SELECT` has
NO status filter, so decided challenges are processed like pending ones);
on `durationMs > 2000` write `failed` with the duration; otherwise compare
against `generateExpectedProof` and write `failed` (with the response hash)
on mismatch or `verified` on match.  Only `proof_challenges` is written —
the `chunks` and `storage_nodes` tables are untouched. -/
def verifyProof (st : CoordState) (now : Nat) (challengeID proofHash : String)
    (durationMs : Int) : CoordState × VerifyOutcome :=
  match st.challenges.find? (fun c => c.id == challengeID) with
  | none => (st, VerifyOutcome.challengeNotFound)
  | some ch =>
    if durationMs > 2000 then
      ({ st with challenges :=
          updateChallenge st.challenges challengeID (timeoutUpdate now durationMs) },
       VerifyOutcome.timedOut)
    else if proofHash == generateExpectedProof ch.seed ch.chunkID then
      ({ st with challenges :=
          updateChallenge st.challenges challengeID (verifiedUpdate now proofHash durationMs) },
       VerifyOutcome.ok)
    else
      ({ st with challenges :=
          updateChallenge st.challenges challengeID (mismatchUpdate now proofHash durationMs) },
       VerifyOutcome.invalidProof)

/-- Status of the challenge row with the given id, for stating outcomes. -/
def challengeStatus (st : CoordState) (challengeID : String) : Option String :=
  (st.challenges.find? (fun c => c.id == challengeID)).map (fun c => c.status)

/-- Recorded duration of the challenge row with the given id. -/
def challengeDuration (st : CoordState) (challengeID : String) : Option (Option Int) :=
  (st.challenges.find? (fun c => c.id == challengeID)).map (fun c => c.durationMs)

/-! ## Concrete instances for witnesses and counterexamples -/

/-- An empty storage-node state rooted at `chunks`. -/
def nodeStore0 : NodeStore := { chunkDir := "chunks", fs := [], rows := [] }

/-- SHA-256 of the ASCII bytes `hello`, the digest the spec's end-to-end
scenario 1 records for that chunk. -/
def helloHash : String :=
  "2cf24dba5fb0a30e26e83b2ac5b9e29e1b161e5c1fa7425e73043362938b9824"

/-- A peer store holding one chunk `aaaa0000` whose ciphertext is `hello`
and whose recorded hash is its true SHA-256 digest. -/
def helloStore : NodeStore :=
  (storeChunk nodeStore0 "aaaa0000" "file-1" 0 helloHash (strBytes "hello")).getD nodeStore0

/-- The row `helloStore` holds for chunk `aaaa0000`. -/
def helloRow : StoredChunk :=
  { id := "aaaa0000", fileID := "file-1", chunkIndex := 0, hash := helloHash,
    sizeBytes := 5, filePath := "chunks/aa/aa/aaaa0000", status := "active" }

/-- A peer store whose single chunk has its recorded hash string equal to
its chunk id — the degenerate situation in which the peer's and the
coordinator's proof computations can meet. -/
def degenStore : NodeStore :=
  (storeChunk nodeStore0 "abcd0000" "file-2" 0 "abcd0000" (strBytes "x")).getD nodeStore0

/-- The row `degenStore` holds for chunk `abcd0000`. -/
def degenRow : StoredChunk :=
  { id := "abcd0000", fileID := "file-2", chunkIndex := 0, hash := "abcd0000",
    sizeBytes := 1, filePath := "chunks/ab/cd/abcd0000", status := "active" }

/-- A peer store after a put whose supplied hash `00` is not the SHA-256 of
the supplied bytes `hello`. -/
def badStore : NodeStore :=
  (storeChunk nodeStore0 "bbbb0000" "file-3" 0 "00" (strBytes "hello")).getD nodeStore0

/-- A freshly registered coordinator-side node, as `RegisterNode` writes it. -/
def nodeA : StorageNode :=
  { id := "node-1", name := "Node A", peerID := "peer-1", address := "addr-1",
    apiKeyHash := "fsn_key1", status := "active", totalStorageBytes := 1073741824,
    usedStorageBytes := 0, earnedCredits := 0, uptimePercentage := 100,
    lastHeartbeat := none }

/-- An `active` node with no free capacity and no recorded heartbeat. -/
def fullNode : StorageNode :=
  { id := "node-2", name := "Node B", peerID := "peer-2", address := "addr-2",
    apiKeyHash := "fsn_key2", status := "active", totalStorageBytes := 0,
    usedStorageBytes := 1000000, earnedCredits := 0, uptimePercentage := 100,
    lastHeartbeat := none }

/-- A node the staleness sweeper has marked `dead`. -/
def deadNode : StorageNode :=
  { id := "node-3", name := "Node C", peerID := "peer-3", address := "addr-3",
    apiKeyHash := "fsn_key3", status := "dead", totalStorageBytes := 1073741824,
    usedStorageBytes := 5, earnedCredits := 0, uptimePercentage := 37,
    lastHeartbeat := some 10 }

/-- A coordinator state holding only the registered node `node-1`. -/
def coord0 : CoordState :=
  { nodes := [nodeA], chunks := [], assignments := [], challenges := [] }

/-- The coordinator state after the upload handler stores the ciphertext
`hello` as chunk `chunk-1` of `file-1` assigned to `node-1`. -/
def coord1 : CoordState :=
  (coordStoreChunk coord0 "chunk-1" "file-1" 0 (strBytes "hello") ["node-1"] ["as-1"]).1

/-- The 32-zero-byte seed of the spec's proof scenario. -/
def seed0 : Bytes := List.replicate 32 0

/-- A pending proof challenge on `chunk-1` for `node-1`. -/
def pendingChallenge : CChallenge :=
  { id := "ch-1", chunkID := "chunk-1", nodeID := "node-1", seed := seed0,
    difficulty := 1000, status := "pending", proofHash := none,
    durationMs := none, verifiedAt := none }

/-- `coord1` with the pending challenge `ch-1` issued. -/
def coordWithChallenge : CoordState := { coord1 with challenges := [pendingChallenge] }

/-- The response hash `VerifyProof` expects for `ch-1`. -/
def matchingHash : String := generateExpectedProof seed0 "chunk-1"

/-- A challenge already decided `verified`, for the terminality claim. -/
def decidedChallenge : CChallenge :=
  { pendingChallenge with
      id := "ch-2"
      status := "verified"
      proofHash := some matchingHash
      durationMs := some 100
      verifiedAt := some 7 }

/-- `coord1` with the decided challenge `ch-2` on record. -/
def coordDecided : CoordState := { coord1 with challenges := [decidedChallenge] }

/-! ## General lemmas: first-match lookup after row updates -/

/-- Mapping a function that neither creates nor destroys predicate matches
commutes with the first-match lookup. -/
theorem find?_map_pred_inv {α : Type} (g : α → α) (pred : α → Bool)
    (hg : ∀ a, pred (g a) = pred a) (l : List α) :
    (l.map g).find? pred = (l.find? pred).map g := by
  induction l with
  | nil => rfl
  | cons a as ih =>
    by_cases h : pred a = true
    · simp [List.find?_cons, hg, h]
    · simp [List.find?_cons, hg, h, ih]

/-- When nothing in the prefix matches, the first match of `l ++ [x]` is the
appended element. -/
theorem find?_append_last {α : Type} (pred : α → Bool) (l : List α) (x : α)
    (h : l.any pred = false) (hx : pred x = true) :
    (l ++ [x]).find? pred = some x := by
  induction l with
  | nil => simp [List.find?, hx]
  | cons a as ih =>
    simp only [List.any_cons, Bool.or_eq_false_iff] at h
    simp [List.find?_cons, h.1, ih h.2]

/-- A true `any` yields a first match satisfying the predicate. -/
theorem find?_of_any {α : Type} (pred : α → Bool) (l : List α)
    (h : l.any pred = true) :
    ∃ x, l.find? pred = some x ∧ pred x = true := by
  induction l with
  | nil => simp at h
  | cons a as ih =>
    by_cases hp : pred a = true
    · exact ⟨a, by simp [List.find?_cons, hp], hp⟩
    · obtain ⟨x, hx, hpx⟩ := ih (by simpa [hp] using h)
      exact ⟨x, by simp [List.find?_cons, hp, hx], hpx⟩

/-- Reading back the path just written returns the written bytes. -/
theorem fsRead_fsWrite (fs : List (String × Bytes)) (p : String) (d : Bytes) :
    fsRead (fsWrite fs p d) p = some d := by
  unfold fsRead fsWrite
  by_cases hany : fs.any (fun e => e.1 == p) = true
  · rw [if_pos hany,
      find?_map_pred_inv (fun e => if e.1 == p then (p, d) else e)
        (fun e => e.1 == p) (by intro a; by_cases hp : (a.1 == p) = true <;> simp [hp]) fs]
    obtain ⟨e0, he0, hpe0⟩ := find?_of_any (fun e => e.1 == p) fs hany
    rw [he0]
    simp [eq_of_beq hpe0]
  · rw [if_neg hany,
      find?_append_last (fun e => e.1 == p) fs (p, d)
        (Bool.eq_false_iff.mpr hany) (by simp)]
    rfl

/-- What `storeChunk` leaves behind: the first row found for the chunk id is
the upserted one — it records the supplied metadata (the supplied `hash` in
particular, unexamined) and the sharded path, and the bytes sit at that
path. -/
theorem storeChunk_lookup (st : NodeStore) (chunkID fileID : String)
    (chunkIndex : Int) (hash : String) (data : Bytes) (st2 : NodeStore)
    (h : storeChunk st chunkID fileID chunkIndex hash data = some st2) :
    ∃ row, getChunk st2 chunkID = some row ∧ row.id = chunkID ∧
      row.fileID = fileID ∧ row.chunkIndex = chunkIndex ∧ row.hash = hash ∧
      row.sizeBytes = data.length ∧ row.filePath = chunkPath st.chunkDir chunkID ∧
      st2.fs = fsWrite st.fs (chunkPath st.chunkDir chunkID) data := by
  unfold storeChunk at h
  by_cases hlen : chunkID.length < 4
  · rw [if_pos hlen] at h
    exact Option.noConfusion h
  · rw [if_neg hlen] at h
    simp only [Option.some.injEq] at h
    subst h
    by_cases hany : st.rows.any (fun r => r.id == chunkID) = true
    · unfold getChunk
      simp only [hany, if_true]
      rw [find?_map_pred_inv _ (fun r => r.id == chunkID)
        (by intro a; by_cases hp : (a.id == chunkID) = true <;> simp [hp]) st.rows]
      obtain ⟨r0, hr0, hpr0⟩ := find?_of_any (fun r => r.id == chunkID) st.rows hany
      rw [hr0]
      refine ⟨_, rfl, ?_, ?_, ?_, ?_, ?_, ?_, ?_⟩ <;> simp [hpr0, eq_of_beq hpr0]
    · unfold getChunk
      rw [if_neg hany,
        find?_append_last (fun r => r.id == chunkID) st.rows _
          (Bool.eq_false_iff.mpr hany) (by simp)]
      exact ⟨_, rfl, rfl, rfl, rfl, rfl, rfl, rfl, rfl⟩

/-! ## Claim C9: put→get round trip -/

/-- C9: `get(chunk_id)` invoked after a successful
`put(chunk_id, ..., bytes)`, with no intervening delete or overwriting put
for that chunk id, returns bytes byte-identical to those given to put.
(Success of the put is the hypothesis: Go's `chunkID[:2]`/`[2:4]` slicing
panics on an id shorter than 4 bytes.) -/
theorem put_get_roundtrip (st : NodeStore) (chunkID fileID : String)
    (chunkIndex : Int) (hash : String) (data : Bytes) (st2 : NodeStore)
    (h : storeChunk st chunkID fileID chunkIndex hash data = some st2) :
    getChunkData st2 chunkID = some data := by
  obtain ⟨row, hrow, hid, hfid, hidx, hhash, hsize, hpath, hfs⟩ :=
    storeChunk_lookup st chunkID fileID chunkIndex hash data st2 h
  simp only [getChunkData, hrow, hpath, hfs]
  exact fsRead_fsWrite st.fs (chunkPath st.chunkDir chunkID) data

/-- Witness for C9 at the spec's scenario-1 chunk: putting `hello` and
reading it back. -/
theorem put_get_roundtrip_witness :
    getChunkData helloStore "aaaa0000" = some (strBytes "hello") :=
  put_get_roundtrip nodeStore0 "aaaa0000" "file-1" 0 helloHash (strBytes "hello")
    helloStore (by decide)

/-! ## Claim C5: put→delete→get -/

/-- C5 counterexample: after putting chunk `aaaa0000` (bytes `hello`) and
deleting it, `get` still returns the bytes — not a not-found error.
`DeleteChunk` only rewrites the row's `status` to `deleted`; it never
unlinks the file, and `GetChunk` / `GetChunkData` select by id with no
status filter. -/
theorem put_delete_get_cex :
    getChunkData (deleteChunk helloStore "aaaa0000") "aaaa0000" =
        some (strBytes "hello") ∧
    getChunkData (deleteChunk helloStore "aaaa0000") "aaaa0000" ≠ none := by
  constructor
  · decide
  · decide

/-- C5 (amended): after `put(chunk_id, ..., bytes)` followed by
`delete(chunk_id)`, a subsequent `get(chunk_id)` still yields the stored
bytes: deletion only marks the index row `deleted`, and retrieval neither
filters on status nor finds the file missing. -/
theorem put_delete_get_returns_bytes (st : NodeStore) (chunkID fileID : String)
    (chunkIndex : Int) (hash : String) (data : Bytes) (st2 : NodeStore)
    (h : storeChunk st chunkID fileID chunkIndex hash data = some st2) :
    getChunkData (deleteChunk st2 chunkID) chunkID = some data := by
  obtain ⟨row, hrow, hid, hfid, hidx, hhash, hsize, hpath, hfs⟩ :=
    storeChunk_lookup st chunkID fileID chunkIndex hash data st2 h
  have hrow2 : st2.rows.find? (fun r => r.id == chunkID) = some row := hrow
  simp only [getChunkData, getChunk, deleteChunk]
  rw [find?_map_pred_inv _ (fun r => r.id == chunkID)
    (by intro a; by_cases hp : (a.id == chunkID) = true <;> simp [hp]) st2.rows]
  rw [hrow2]
  simp [hid, hpath, hfs, fsRead_fsWrite]

/-- Witness for the amended C5 at the `hello` chunk. -/
theorem put_delete_get_returns_bytes_witness :
    getChunkData (deleteChunk helloStore "aaaa0000") "aaaa0000" =
      some (strBytes "hello") :=
  put_delete_get_returns_bytes nodeStore0 "aaaa0000" "file-1" 0 helloHash
    (strBytes "hello") helloStore (by decide)

/-! ## Claim C4: put verifies the hash -/

/-- C4 counterexample: a put whose supplied hash `00` is not the SHA-256 of
the supplied bytes `hello` succeeds anyway, leaving a chunk in the store
whose recorded hash differs from the SHA-256 of its stored bytes — the
claimed rejection and the claimed store invariant both fail. -/
theorem storeChunk_hash_mismatch_cex :
    (storeChunk nodeStore0 "bbbb0000" "file-3" 0 "00" (strBytes "hello")).isSome
        = true ∧
    getChunkData badStore "bbbb0000" = some (strBytes "hello") ∧
    (getChunk badStore "bbbb0000").map (fun r => r.hash) = some "00" ∧
    hexEncode (sha256 (strBytes "hello")) ≠ "00" := by
  refine ⟨by decide, by decide, by decide, by decide⟩

/-- C4 (amended): `put(chunk_id, file_id, index, hash, bytes)` performs no
hash computation and no mismatch check at all: for every store and every
supplied `hash` (whatever its relation to the bytes), the call succeeds on
any id of length at least 4, and the stored row records exactly the
supplied hash. -/
theorem storeChunk_never_checks_hash (st : NodeStore) (chunkID fileID : String)
    (chunkIndex : Int) (hash : String) (data : Bytes)
    (hlen : 4 ≤ chunkID.length) :
    (storeChunk st chunkID fileID chunkIndex hash data).isSome = true ∧
    (getChunk ((storeChunk st chunkID fileID chunkIndex hash data).getD st)
        chunkID).map (fun r => r.hash) = some hash := by
  have hnl : ¬ chunkID.length < 4 := by omega
  obtain ⟨st2, hst2⟩ : ∃ st2,
      storeChunk st chunkID fileID chunkIndex hash data = some st2 := by
    unfold storeChunk
    rw [if_neg hnl]
    exact ⟨_, rfl⟩
  rw [hst2]
  obtain ⟨row, hrow, hid, hfid, hidx, hhash, hsize, hpath, hfs⟩ :=
    storeChunk_lookup st chunkID fileID chunkIndex hash data st2 hst2
  exact ⟨rfl, by simp [hrow, hhash]⟩

/-- Witness for the amended C4 at the mismatching put. -/
theorem storeChunk_never_checks_hash_witness :
    (storeChunk nodeStore0 "bbbb0000" "file-3" 0 "00" (strBytes "hello")).isSome
        = true ∧
    (getChunk ((storeChunk nodeStore0 "bbbb0000" "file-3" 0 "00"
        (strBytes "hello")).getD nodeStore0) "bbbb0000").map (fun r => r.hash) =
      some "00" :=
  storeChunk_never_checks_hash nodeStore0 "bbbb0000" "file-3" 0 "00"
    (strBytes "hello") (by decide)

/-! ## Claim C1: the peer proof engine's computation -/

/-- C1 counterexample: for the stored chunk `aaaa0000` with ciphertext
`hello` (and its correct recorded digest), seed `[]` and difficulty 1, the
engine's answer differs from the spec's `hex(SHA-256(seed ∥ ciphertext))` —
the engine hashes the 64-character digest string instead of the 5
ciphertext bytes. -/
theorem generateProof_cex :
    generateProof helloStore "aaaa0000" [] 1 ≠
      specProofHash helloStore "aaaa0000" [] 1 := by decide

/-- C1 (amended): `GenerateProof(chunk_id, seed, difficulty)` returns the
lowercase-hex encoding of SHA-256 applied `difficulty` times to
`seed ∥ []byte(chunk.Hash)` — the chunk's stored hex-digest STRING — and
never reads the ciphertext bytes at all. -/
theorem generateProof_hashes_stored_digest (st : NodeStore) (chunkID : String)
    (seed : Bytes) (difficulty : Nat) (chunk : StoredChunk)
    (h : getChunk st chunkID = some chunk) :
    generateProof st chunkID seed difficulty =
      some (hexEncode (sha256Iter difficulty (seed ++ strBytes chunk.hash))) := by
  simp [generateProof, h]

/-- Witness for the amended C1 at the `hello` chunk, seed `[]`,
difficulty 1. -/
theorem generateProof_hashes_stored_digest_witness :
    getChunk helloStore "aaaa0000" = some helloRow ∧
    generateProof helloStore "aaaa0000" [] 1 =
      some (hexEncode (sha256Iter 1 ([] ++ strBytes helloRow.hash))) :=
  ⟨by decide,
   generateProof_hashes_stored_digest helloStore "aaaa0000" [] 1 helloRow (by decide)⟩

/-! ## Claim C2: coordinator expectation vs peer engine -/

/-- C2 counterexample: on the stored chunk `aaaa0000` (ciphertext `hello`,
correct digest recorded), seed `[]`, difficulty 1, the peer engine's answer
differs from the value `VerifyProof` compares against: the coordinator
computes a single SHA-256 of `seed ∥ chunk_id` while the peer iterates over
`seed ∥ chunk.Hash`. -/
theorem expectedProof_mismatch_cex :
    generateProof helloStore "aaaa0000" [] 1 ≠
      some (generateExpectedProof [] "aaaa0000") := by decide

/-- C2 (amended): the coordinator's expected value is a single SHA-256 of
`seed ∥ chunk_id`, regardless of difficulty and of the ciphertext; it
coincides with the peer engine's `proof_hash` only degenerately — here,
when the chunk's stored digest string equals the chunk id and the
difficulty is 1 — and differs in general. -/
theorem proofEngines_agree_only_degenerately (st : NodeStore) (chunkID : String)
    (seed : Bytes) (chunk : StoredChunk)
    (h : getChunk st chunkID = some chunk) (hh : chunk.hash = chunkID) :
    generateProof st chunkID seed 1 = some (generateExpectedProof seed chunkID) := by
  simp [generateProof, h, hh, generateExpectedProof, sha256Iter]

/-- Witness for the amended C2 at the degenerate chunk whose recorded hash
string equals its id. -/
theorem proofEngines_agree_only_degenerately_witness :
    getChunk degenStore "abcd0000" = some degenRow ∧
    generateProof degenStore "abcd0000" seed0 1 =
      some (generateExpectedProof seed0 "abcd0000") :=
  ⟨by decide,
   proofEngines_agree_only_degenerately degenStore "abcd0000" seed0 degenRow
     (by decide) (by decide)⟩

/-! ## Claim C3: assignment lifecycle during distribution -/

/-- C3 counterexample: distributing the `hello` ciphertext as `chunk-1` to
`node-1` writes the assignment in state `active` at the instant of creation
— it is never `pending`, there is no transfer step and no acknowledgment in
the code at all, and `node-1`'s row (its `used_storage_bytes` of 0
included) is untouched. -/
theorem assignment_created_active_cex :
    (coordStoreChunk coord0 "chunk-1" "file-1" 0 (strBytes "hello")
        ["node-1"] ["as-1"]).1.assignments =
      [{ id := "as-1", chunkID := "chunk-1", nodeID := "node-1",
         status := "active" }] ∧
    (coordStoreChunk coord0 "chunk-1" "file-1" 0 (strBytes "hello")
        ["node-1"] ["as-1"]).1.nodes = [nodeA] := by
  refine ⟨by decide, by decide⟩

/-- C3 (amended): the coordinator's `StoreChunk` inserts every per-peer
assignment directly in state `active` (the schema default, since the
`INSERT` names no status) with no `pending` phase, no peer transfer or
acknowledgment, and no change to any node row: after the call, every
assignment row either pre-existed or is `active`, and the `storage_nodes`
table is unchanged. -/
theorem coordStoreChunk_assignments_active (st : CoordState)
    (chunkUUID fileID : String) (chunkIndex : Int) (data : Bytes)
    (nodeIDs assignmentUUIDs : List String) :
    (∀ a ∈ (coordStoreChunk st chunkUUID fileID chunkIndex data nodeIDs
        assignmentUUIDs).1.assignments,
      a ∈ st.assignments ∨ a.status = "active") ∧
    (coordStoreChunk st chunkUUID fileID chunkIndex data nodeIDs
        assignmentUUIDs).1.nodes = st.nodes := by
  constructor
  · intro a ha
    simp only [coordStoreChunk, List.mem_append] at ha
    rcases ha with ha | ha
    · exact Or.inl ha
    · right
      simp only [List.mem_map] at ha
      obtain ⟨p, hp, rfl⟩ := ha
      rfl
  · rfl

/-- Witness for the amended C3: the freshly created assignment of the
concrete distribution is `active`. -/
theorem coordStoreChunk_assignments_active_witness :
    ({ id := "as-1", chunkID := "chunk-1", nodeID := "node-1",
       status := "active" } : CAssignment) ∈
      (coordStoreChunk coord0 "chunk-1" "file-1" 0 (strBytes "hello")
        ["node-1"] ["as-1"]).1.assignments ∧
    (({ id := "as-1", chunkID := "chunk-1", nodeID := "node-1",
        status := "active" } : CAssignment) ∈ coord0.assignments ∨
     ({ id := "as-1", chunkID := "chunk-1", nodeID := "node-1",
        status := "active" } : CAssignment).status = "active") :=
  ⟨by decide,
   (coordStoreChunk_assignments_active coord0 "chunk-1" "file-1" 0
     (strBytes "hello") ["node-1"] ["as-1"]).1 _ (by decide)⟩

/-! ## Claim C6: the placement planner -/

/-- C6 counterexample: a registry whose only node is `active` but has zero
declared capacity (with a million bytes in use) and has never sent a
heartbeat.  The planner happily returns it for R = 1 — although the spec's
eligibility predicate rejects it and, no peer being able to accept the
chunk, the claim requires an insufficient-capacity failure. -/
theorem selectNodes_ineligible_cex :
    selectNodesForChunks [fullNode] 1 = Except.ok [fullNode] ∧
    specEligible 1000 90 5 [] "chunk-9" fullNode = false := by
  refine ⟨by decide, by decide⟩

/-- C6 (amended): `SelectNodesForChunks` returns the first R nodes whose
`status` is `active` (in registry order) and fails exactly when fewer than
R active nodes exist; heartbeat recency, free capacity and existing
assignments are never consulted.  Every selected node does have
`status = active`. -/
theorem selectNodes_first_active (nodes : List StorageNode) (r : Nat) :
    (selectNodesForChunks nodes r = Except.ok ((getAllNodes nodes).take r) ↔
        r ≤ (getAllNodes nodes).length) ∧
    ((getAllNodes nodes).length < r →
        selectNodesForChunks nodes r = Except.error "not enough active nodes") ∧
    (∀ sel, selectNodesForChunks nodes r = Except.ok sel →
        ∀ n, n ∈ sel → n.status = "active") := by
  by_cases hlt : (getAllNodes nodes).length < r
  · refine ⟨?_, fun _ => ?_, fun sel hsel => ?_⟩
    · simp only [selectNodesForChunks, if_pos hlt]
      constructor
      · intro he
        exact absurd he (by simp)
      · intro hle
        omega
    · simp only [selectNodesForChunks, if_pos hlt]
    · simp only [selectNodesForChunks, if_pos hlt] at hsel
      exact absurd hsel (by simp)
  · refine ⟨?_, fun hc => absurd hc hlt, fun sel hsel n hn => ?_⟩
    · simp only [selectNodesForChunks, if_neg hlt]
      exact ⟨fun _ => by omega, fun _ => by trivial⟩
    · simp only [selectNodesForChunks, if_neg hlt, Except.ok.injEq] at hsel
      subst hsel
      have hmem : n ∈ getAllNodes nodes := List.take_subset r _ hn
      exact eq_of_beq (List.mem_filter.mp hmem).2

/-- Witness for the amended C6: with one active registered node, R = 1
returns exactly that node. -/
theorem selectNodes_first_active_witness :
    selectNodesForChunks [nodeA] 1 = Except.ok ((getAllNodes [nodeA]).take 1) :=
  (selectNodes_first_active [nodeA] 1).1.mpr (by decide)

/-! ## Claims C7 and C8: proof verification outcomes -/

/-- The first match satisfies the predicate. -/
theorem find?_some_pred {α : Type} (pred : α → Bool) (l : List α) (a : α)
    (h : l.find? pred = some a) : pred a = true :=
  List.find?_some h

/-- Looking the challenge up again after an id-preserving row update
returns the updated row. -/
theorem find?_after_updateChallenge (cs : List CChallenge) (challengeID : String)
    (f : CChallenge → CChallenge) (hf : ∀ c, (f c).id = c.id) (ch : CChallenge)
    (h : cs.find? (fun c => c.id == challengeID) = some ch) :
    (updateChallenge cs challengeID f).find? (fun c => c.id == challengeID) =
      some (f ch) := by
  have hpch : (ch.id == challengeID) = true :=
    find?_some_pred (fun c => c.id == challengeID) cs ch h
  unfold updateChallenge
  rw [find?_map_pred_inv _ (fun c => c.id == challengeID)
    (by intro a; by_cases hp : (a.id == challengeID) = true <;> simp [hp, hf]) cs,
    h]
  have hid : ch.id = challengeID := eq_of_beq hpch
  simp [hid]

/-- C7 counterexample: a correct, in-time response to the pending challenge
`ch-1` is written `verified` — yet the chunks table (every recorded chunk
attribute, on a schema that has no `last_verified_at` column at all) is
bit-for-bit unchanged, against the claim's "on `verified` the chunk's
`last_verified_at` is updated"; nor does any failure-reason column exist to
receive `timeout` or `mismatch`. -/
theorem verified_leaves_chunks_untouched_cex :
    (verifyProof coordWithChallenge 5 "ch-1" matchingHash 100).2 =
        VerifyOutcome.ok ∧
    challengeStatus (verifyProof coordWithChallenge 5 "ch-1" matchingHash 100).1
        "ch-1" = some "verified" ∧
    (verifyProof coordWithChallenge 5 "ch-1" matchingHash 100).1.chunks =
        coordWithChallenge.chunks := by
  refine ⟨by decide, by decide, by decide⟩

/-- C7 (amended): the written outcome is `verified` exactly when the
response hash matches `generateExpectedProof` and the elapsed time is at
most 2000 ms, and `failed` otherwise (over 2000 ms, or on hash mismatch);
but no failure reason is recorded anywhere (the schema has no such column)
and the chunks table — hence any per-chunk verification timestamp — is
never touched by `VerifyProof`. -/
theorem verifyProof_written_outcome (st : CoordState) (now : Nat)
    (challengeID proofHash : String) (durationMs : Int) (ch : CChallenge)
    (h : st.challenges.find? (fun c => c.id == challengeID) = some ch) :
    ((verifyProof st now challengeID proofHash durationMs).1.chunks = st.chunks) ∧
    ((verifyProof st now challengeID proofHash durationMs).1.nodes = st.nodes) ∧
    (2000 < durationMs →
      challengeStatus (verifyProof st now challengeID proofHash durationMs).1
          challengeID = some "failed" ∧
      (verifyProof st now challengeID proofHash durationMs).2 =
        VerifyOutcome.timedOut) ∧
    (durationMs ≤ 2000 → proofHash = generateExpectedProof ch.seed ch.chunkID →
      challengeStatus (verifyProof st now challengeID proofHash durationMs).1
          challengeID = some "verified" ∧
      (verifyProof st now challengeID proofHash durationMs).2 =
        VerifyOutcome.ok) ∧
    (durationMs ≤ 2000 → proofHash ≠ generateExpectedProof ch.seed ch.chunkID →
      challengeStatus (verifyProof st now challengeID proofHash durationMs).1
          challengeID = some "failed" ∧
      (verifyProof st now challengeID proofHash durationMs).2 =
        VerifyOutcome.invalidProof) := by
  by_cases hd : durationMs > 2000
  · have hred : verifyProof st now challengeID proofHash durationMs =
        ({ st with challenges :=
            updateChallenge st.challenges challengeID (timeoutUpdate now durationMs) },
         VerifyOutcome.timedOut) := by
      simp [verifyProof, h, hd]
    rw [hred]
    refine ⟨rfl, rfl, fun _ => ⟨?_, rfl⟩, fun hle => absurd hd (by omega),
      fun hle => absurd hd (by omega)⟩
    unfold challengeStatus
    have hupd := find?_after_updateChallenge st.challenges challengeID
      (timeoutUpdate now durationMs) (fun c => rfl) ch h
    simp [hupd, timeoutUpdate]
  · by_cases heq : proofHash = generateExpectedProof ch.seed ch.chunkID
    · have hred : verifyProof st now challengeID proofHash durationMs =
          ({ st with challenges :=
              updateChallenge st.challenges challengeID (verifiedUpdate now proofHash durationMs) },
           VerifyOutcome.ok) := by
        simp [verifyProof, h, hd, heq]
      rw [hred]
      refine ⟨rfl, rfl, fun hgt => absurd hgt hd, fun _ _ => ⟨?_, rfl⟩,
        fun _ hne => absurd heq hne⟩
      unfold challengeStatus
      have hupd := find?_after_updateChallenge st.challenges challengeID
        (verifiedUpdate now proofHash durationMs) (fun c => rfl) ch h
      simp [hupd, verifiedUpdate]
    · have hred : verifyProof st now challengeID proofHash durationMs =
          ({ st with challenges :=
              updateChallenge st.challenges challengeID (mismatchUpdate now proofHash durationMs) },
           VerifyOutcome.invalidProof) := by
        simp [verifyProof, h, hd, heq]
      rw [hred]
      refine ⟨rfl, rfl, fun hgt => absurd hgt hd, fun _ he => absurd he heq,
        fun _ _ => ⟨?_, rfl⟩⟩
      unfold challengeStatus
      have hupd := find?_after_updateChallenge st.challenges challengeID
        (mismatchUpdate now proofHash durationMs) (fun c => rfl) ch h
      simp [hupd, mismatchUpdate]

/-- Witness for the amended C7: the concrete in-time matching response is
written `verified` with outcome ok. -/
theorem verifyProof_written_outcome_witness :
    challengeStatus (verifyProof coordWithChallenge 5 "ch-1" matchingHash 100).1
        "ch-1" = some "verified" ∧
    (verifyProof coordWithChallenge 5 "ch-1" matchingHash 100).2 =
      VerifyOutcome.ok :=
  (verifyProof_written_outcome coordWithChallenge 5 "ch-1" matchingHash 100
    pendingChallenge (by decide)).2.2.2.1 (by omega) (by rfl)

/-- C8 counterexample: challenge `ch-2` is already decided `verified` (hash
and duration recorded), yet a later `VerifyProof` call with a 3000 ms
duration rewrites it to `failed` with the new duration — the decided state
is not terminal. -/
theorem decided_challenge_overwritten_cex :
    challengeStatus coordDecided "ch-2" = some "verified" ∧
    challengeDuration coordDecided "ch-2" = some (some 100) ∧
    challengeStatus (verifyProof coordDecided 9 "ch-2" "deadbeef" 3000).1
        "ch-2" = some "failed" ∧
    challengeDuration (verifyProof coordDecided 9 "ch-2" "deadbeef" 3000).1
        "ch-2" = some (some 3000) := by
  refine ⟨by decide, by decide, by decide, by decide⟩

/-- C8 (amended): a challenge does move `pending → verified | failed`, but
the decided state is NOT terminal: `VerifyProof` selects the challenge with
no status filter, so a later call rewrites the status and `duration_ms`
(and, on the non-timeout paths, the `proof_hash`) of an already-decided
challenge exactly as it would a pending one — shown here on the timeout
path, whose rewrite applies whatever the stored status. -/
theorem verifyProof_overwrites_decided (st : CoordState) (now : Nat)
    (challengeID proofHash : String) (durationMs : Int) (ch : CChallenge)
    (h : st.challenges.find? (fun c => c.id == challengeID) = some ch)
    (hd : 2000 < durationMs) :
    challengeStatus (verifyProof st now challengeID proofHash durationMs).1
        challengeID = some "failed" ∧
    challengeDuration (verifyProof st now challengeID proofHash durationMs).1
        challengeID = some (some durationMs) := by
  have hred : verifyProof st now challengeID proofHash durationMs =
      ({ st with challenges :=
          updateChallenge st.challenges challengeID (timeoutUpdate now durationMs) },
       VerifyOutcome.timedOut) := by
    simp [verifyProof, h, hd]
  rw [hred]
  unfold challengeStatus challengeDuration
  have hupd := find?_after_updateChallenge st.challenges challengeID
    (timeoutUpdate now durationMs) (fun c => rfl) ch h
  exact ⟨by simp [hupd, timeoutUpdate], by simp [hupd, timeoutUpdate]⟩

/-- Witness for the amended C8 at the decided challenge `ch-2`. -/
theorem verifyProof_overwrites_decided_witness :
    challengeStatus (verifyProof coordDecided 9 "ch-2" "deadbeef" 3000).1
        "ch-2" = some "failed" ∧
    challengeDuration (verifyProof coordDecided 9 "ch-2" "deadbeef" 3000).1
        "ch-2" = some (some 3000) :=
  verifyProof_overwrites_decided coordDecided 9 "ch-2" "deadbeef" 3000
    decidedChallenge (by decide) (by omega)

/-! ## Claim C10: heartbeat processing -/

/-- C10 counterexample: processing a heartbeat for the dead node leaves its
status `dead` (never back to `active`) and its uptime figure untouched at
37 — and the authentication layer in front of the heartbeat handler would
not even let a non-active peer through, since the key lookup filters on
`status = 'active'`. -/
theorem dead_node_heartbeat_cex :
    (updateHeartbeat [deadNode] 99 "node-3" 123).map (fun n => n.status) =
        ["dead"] ∧
    (updateHeartbeat [deadNode] 99 "node-3" 123).map
        (fun n => n.uptimePercentage) = [37] ∧
    getAPIKeyHash [deadNode] "peer-3" = none := by
  refine ⟨by decide, by decide, by decide⟩

/-- C10 (amended): processing a heartbeat updates only the peer's
`last_heartbeat` and `used_storage_bytes`; its `status`, running uptime
figure and earned credits are left exactly as they were — so a `dead` peer
is not moved back to `active` (and could not authenticate a heartbeat in
the first place). -/
theorem heartbeat_updates_only_liveness_fields (nodes : List StorageNode)
    (now : Nat) (nodeID : String) (usedBytes : Int) :
    ((updateHeartbeat nodes now nodeID usedBytes).map
        (fun n => (n.status, n.uptimePercentage, n.earnedCredits)) =
      nodes.map (fun n => (n.status, n.uptimePercentage, n.earnedCredits))) ∧
    (∀ n ∈ updateHeartbeat nodes now nodeID usedBytes,
      n.id = nodeID → n.lastHeartbeat = some now ∧
        n.usedStorageBytes = usedBytes) := by
  constructor
  · unfold updateHeartbeat
    rw [List.map_map]
    apply List.map_congr_left
    intro a _
    by_cases hp : (a.id == nodeID) = true <;> simp [hp, Function.comp]
  · intro n hn hid
    unfold updateHeartbeat at hn
    obtain ⟨x, hx, rfl⟩ := List.mem_map.mp hn
    by_cases hp : (x.id == nodeID) = true
    · simp [hp]
    · rw [if_neg (by simpa using hp)] at hid ⊢
      exact absurd hid (by simpa using hp)

/-- Witness for the amended C10: the dead node's heartbeat lands in
`last_heartbeat` and `used_storage_bytes`. -/
theorem heartbeat_updates_only_liveness_fields_witness :
    ((updateHeartbeat [deadNode] 99 "node-3" 123).headD deadNode).lastHeartbeat =
        some 99 ∧
    ((updateHeartbeat [deadNode] 99 "node-3" 123).headD
        deadNode).usedStorageBytes = 123 :=
  (heartbeat_updates_only_liveness_fields [deadNode] 99 "node-3" 123).2 _
    (by decide) (by decide)

end DeStore
